import Mathlib

/-!
Shallow embedding of the torrent-metadata exchange engine of the repository
(src/peer/strategy.rs, src/peer/info_fetcher.rs, src/peer/info_seeder.rs).

The repository's `peer::message`, `peer::connection` and metainfo modules are
not part of the sources under verification; they are external collaborators
here.  Their observable behaviour (bencode encode/decode of the handshake and
ut_metadata payloads, the info-dictionary codec and the infohash digest) is
abstracted into a `Codec` record of pure functions, and connection effects are
made explicit: incoming traffic is a list of received messages, outgoing
traffic is a list of `Sent` items returned by each operation.

Rust `Result` values are modelled with an explicit result type; a Rust panic
(out-of-bounds slice indexing) is modelled as a distinct `panicked` outcome,
since a panic is not a `Result` error and is not caught by the serving loop's
ignore-errors policy.  Machine integers (`usize`, `u8`) are modelled as `Nat`;
the only subtraction performed (`self.pieces - piece` in the seeder) happens
under a guard that makes it non-underflowing, so truncated `Nat` subtraction
agrees with Rust.
-/

/-- Modelled from the spec: the info dictionary is opaque to the engine beyond
its serialized length and its hash, so it is represented by an abstract value. -/
abbrev Info := Nat

/-- Modelled from the spec: the target identifier is a fixed-size digest,
compared only for equality; an abstract value suffices. -/
abbrev Infohash := Nat

/-- Error cases of the engine, named after the `Error` variants used in
src/peer/info_fetcher.rs and src/peer/info_seeder.rs.  `Network` stands for
any opaque transport-layer failure. -/
inductive Error
  | PeerUtMetadataNotSupported
  | PeerUtMetadataMetadataSizeNotKnown
  | PeerUtMetadataWrongPiece
  | PeerUtMetadataPieceLength
  | PeerUtMetadataInfoLength
  | PeerUtMetadataWrongInfohash
  | PeerUtMetadataInfoDeserialize
  | PeerMessageBencode
  | Network
deriving DecidableEq

/-- Modelled from the spec: the extended handshake payload, with an optional
declared metadata size and a mapping extension-name to peer-local numeric id
(src/peer/info_fetcher.rs uses `handshake.metadata_size` and
`handshake.message_ids.get`). -/
structure Handshake where
  metadata_size : Option Nat
  message_ids : List (String × Nat)
deriving DecidableEq

/-- Modelled from the spec: the ut_metadata message header
(keys msg_type, piece, and total_size for Data only). -/
structure UtMetadata where
  msg_type : Nat
  piece : Nat
  total_size : Option Nat
deriving DecidableEq

/-- Modelled from the spec: the wire name of the metadata extension, the key
looked up in the handshake's message-id mapping (`extended::UtMetadata::NAME`). -/
def UtMetadata.NAME : String := "ut_metadata"

/-- Modelled from the spec: ut_metadata message kinds, with the numeric wire
values 0=Request, 1=Data, 2=Reject (`extended::ut_metadata::MsgType`). -/
inductive MsgType
  | Request
  | Data
  | Reject
  | NotImplemented
deriving DecidableEq

/-- Modelled from the spec: conversion of the numeric `msg_type` field to the
message kind, as performed by `msg.msg_type.into()` in src/peer/strategy.rs. -/
def MsgType.of_u8 : Nat → MsgType
  | 0 => .Request
  | 1 => .Data
  | 2 => .Reject
  | _ => .NotImplemented

/-- Modelled from the spec: classification of the one-byte extension id of an
extension message (`extended::Id`): the handshake id, the metadata-extension
id, or any other id. -/
inductive ExtId
  | Handshake
  | UtMetadata
  | NotImplemented (id : Nat)
deriving DecidableEq

deriving instance DecidableEq for Except

/-- Modelled from the spec: message flavour; only `Extended` is routed by the
dispatcher (`message::Flavour::Extended` in src/peer/strategy.rs). -/
inductive Flavour
  | Extended
  | Other
deriving DecidableEq

/-- Modelled from the spec: an inbound peer-wire message, carrying its flavour
and the result of `parse_extended_payload()`: either a decode failure or the
pair of extension id and raw extension payload bytes. -/
structure Message where
  flavour : Flavour
  ext : Except Error (ExtId × List Nat)
deriving DecidableEq

/-- Modelled from the spec: the pure encode/decode collaborators (bendy bencode
serde and the infohash digest).  `deUt`/`serUt` decode and re-encode the
ut_metadata header, `deHandshake` decodes an extended handshake payload,
`deInfo`/`serInfo` decode and canonically re-encode an info dictionary, and
`from_bencoded_info_dict` is `Infohash::from_bencoded_info_dict`. -/
structure Codec where
  deUt : List Nat → Option UtMetadata
  serUt : UtMetadata → List Nat
  deHandshake : List Nat → Option Handshake
  deInfo : List Nat → Option Info
  serInfo : Info → List Nat
  from_bencoded_info_dict : List Nat → Infohash

/-- Outgoing traffic item: the extended handshake, a ut_metadata Request for a
piece index, or a ut_metadata Data message with its header fields and the raw
trailer bytes appended after the bencoded header. -/
inductive Sent
  | handshake
  | request (piece : Nat)
  | data (piece : Nat) (total_size : Nat) (trailer : List Nat)
deriving DecidableEq

/-- Outcome of one handler or dispatch call on a session of state type σ:
success with the mutated state and the messages sent, a `Result` error
together with the state as mutated up to the point of the error, or a panic. -/
inductive HOut (σ : Type)
  | ok (s : σ) (sent : List Sent)
  | fail (s : σ) (e : Error)
  | panicked
deriving DecidableEq

/-- Role-supplied hooks of the `Behaviour` trait of src/peer/strategy.rs. -/
structure Hooks (σ : Type) where
  extension_handshake : σ → List Nat → HOut σ
  ut_metadata_data : σ → UtMetadata → List Nat → HOut σ
  ut_metadata_request : σ → UtMetadata → HOut σ

variable {σ : Type}

/-- Behaviour::ut_metadata (src/peer/strategy.rs lines 24-31): decode the
ut_metadata header from the payload, then route kind Data to the data hook,
kind Request to the request hook, and anything else to a no-op. -/
def Hooks.ut_metadata (c : Codec) (hk : Hooks σ) (s : σ) (payload : List Nat) : HOut σ :=
  match c.deUt payload with
  | none => .fail s .PeerMessageBencode
  | some msg =>
    match MsgType.of_u8 msg.msg_type with
    | .Data => hk.ut_metadata_data s msg payload
    | .Request => hk.ut_metadata_request s msg
    | _ => .ok s []

/-- Behaviour::handle_extended (src/peer/strategy.rs lines 15-22): route the
parsed extension payload by extension id; a parse failure propagates. -/
def Hooks.handle_extended (c : Codec) (hk : Hooks σ) (s : σ) (m : Message) : HOut σ :=
  match m.ext with
  | .error e => .fail s e
  | .ok (.Handshake, payload) => hk.extension_handshake s payload
  | .ok (.UtMetadata, payload) => Hooks.ut_metadata c hk s payload
  | .ok (.NotImplemented _, _) => .ok s []

/-- Behaviour::handle_message (src/peer/strategy.rs lines 8-13): a message that
is not extension-flavoured is a no-op; an extended message is routed. -/
def Hooks.handle_message (c : Codec) (hk : Hooks σ) (s : σ) (m : Message) : HOut σ :=
  match m.flavour with
  | .Extended => Hooks.handle_extended c hk s m
  | _ => .ok s []

/-- Fetch-session state (src/peer/info_fetcher.rs lines 10-17).  The
`Connection` field is externalized. -/
structure InfoFetcher where
  infohash : Infohash
  ut_metadata_message_id : Nat
  metadata_size : Nat
  info_dict : List Nat
  info : Option Info
deriving DecidableEq

/-- Observable result of the external `Connection` setup used by
`InfoFetcher::new`: whether the extension protocol is supported and the result
of `expect_extended_handshake()`.  A `Connection::new` failure is the
`Except.error` case of the surrounding argument. -/
structure ConnInfo where
  supports_extension_protocol : Bool
  peer_handshake : Except Error Handshake
deriving DecidableEq

/-- InfoFetcher::new (src/peer/info_fetcher.rs lines 20-46), with connection
effects made explicit: returns the construction result paired with everything
sent on the wire during construction.  The extended handshake is sent after the
support check and before reading the peer's handshake, exactly as in the
source; no ut_metadata Request is ever sent here. -/
def InfoFetcher.new (infohash : Infohash) (conn : Except Error ConnInfo) :
    Except Error InfoFetcher × List Sent :=
  match conn with
  | .error e => (.error e, [])
  | .ok ci =>
    if ci.supports_extension_protocol = false then
      (.error .PeerUtMetadataNotSupported, [])
    else
      match ci.peer_handshake with
      | .error e => (.error e, [.handshake])
      | .ok handshake =>
        match handshake.metadata_size with
        | none => (.error .PeerUtMetadataMetadataSizeNotKnown, [.handshake])
        | some size =>
          match handshake.message_ids.lookup UtMetadata.NAME with
          | none => (.error .PeerUtMetadataNotSupported, [.handshake])
          | some id =>
            (.ok { infohash := infohash, ut_metadata_message_id := id,
                   metadata_size := size, info_dict := [], info := none },
             [.handshake])

/-- InfoFetcher::verify_info_dict (src/peer/info_fetcher.rs lines 65-77):
decode the accumulated bytes as an info dictionary, re-encode canonically,
hash, and compare with the target infohash; on a match store the result. -/
def InfoFetcher.verify_info_dict (c : Codec) (s : InfoFetcher) : HOut InfoFetcher :=
  match c.deInfo s.info_dict with
  | none => .fail s .PeerUtMetadataInfoDeserialize
  | some info =>
    let infohash := c.from_bencoded_info_dict (c.serInfo info)
    if infohash = s.infohash then
      .ok { s with info := some info } []
    else
      .fail s .PeerUtMetadataWrongInfohash

/-- Behaviour::ut_metadata_data for InfoFetcher (src/peer/info_fetcher.rs lines
81-109).  `P` is the engine piece-size constant
`extended::UtMetadata::PIECE_LENGTH` (its defining module is external; the
spec fixes it as a constant, conventionally 16 KiB).  The undelimited
header/trailer boundary is recovered by re-encoding the header; the Rust slice
`payload[piece_offset..]` panics when the offset exceeds the payload length. -/
def InfoFetcher.ut_metadata_data (c : Codec) (P : Nat) (s : InfoFetcher)
    (msg : UtMetadata) (payload : List Nat) : HOut InfoFetcher :=
  let piece := s.info_dict.length / P
  if msg.piece ≠ piece then
    .fail s .PeerUtMetadataWrongPiece
  else
    let piece_offset := (c.serUt msg).length
    if payload.length < piece_offset then
      .panicked
    else if (payload.drop piece_offset).length > P then
      .fail s .PeerUtMetadataPieceLength
    else
      let s' := { s with info_dict := s.info_dict ++ payload.drop piece_offset }
      match compare s'.info_dict.length s.metadata_size with
      | .eq => InfoFetcher.verify_info_dict c s'
      | .lt => .ok s' [.request (piece + 1)]
      | .gt => .fail s' .PeerUtMetadataInfoLength

/-- Behaviour::extension_handshake for InfoFetcher (src/peer/info_fetcher.rs
lines 111-125): re-derive the declared size and the metadata message id with
the same failure modes as at construction; only when both are present are the
stored fields replaced and the accumulator cleared. -/
def InfoFetcher.extension_handshake (c : Codec) (s : InfoFetcher)
    (payload : List Nat) : HOut InfoFetcher :=
  match c.deHandshake payload with
  | none => .fail s .PeerMessageBencode
  | some handshake =>
    match handshake.metadata_size with
    | none => .fail s .PeerUtMetadataMetadataSizeNotKnown
    | some size =>
      match handshake.message_ids.lookup UtMetadata.NAME with
      | none => .fail s .PeerUtMetadataNotSupported
      | some id =>
        .ok { s with metadata_size := size, ut_metadata_message_id := id,
                     info_dict := [] } []

/-- The fetcher's three Behaviour hooks (src/peer/info_fetcher.rs lines
80-130); `ut_metadata_request` is `Ok(())`, a fetcher never serves pieces. -/
def InfoFetcher.hooks (c : Codec) (P : Nat) : Hooks InfoFetcher where
  extension_handshake := fun s payload => InfoFetcher.extension_handshake c s payload
  ut_metadata_data := fun s msg payload => InfoFetcher.ut_metadata_data c P s msg payload
  ut_metadata_request := fun s _ => .ok s []

/-- Result of a fetch run: the verified info dictionary, a fatal error, or a
panic inside a handler. -/
inductive RunRes
  | ok (info : Info)
  | err (e : Error)
  | panicked
deriving DecidableEq

/-- Loop body of InfoFetcher::run (src/peer/info_fetcher.rs lines 56-62) over
an explicit list of incoming messages: receive, dispatch (a dispatch error is
propagated by the `?` operator and ends the run), and return the stored info
dictionary as soon as it is set.  When the incoming list is exhausted the next
blocking receive fails with a transport error, modelled as `Error.Network`. -/
def InfoFetcher.runLoop (c : Codec) (P : Nat) (s : InfoFetcher) :
    List Message → RunRes
  | [] => .err .Network
  | m :: rest =>
    match Hooks.handle_message c (InfoFetcher.hooks c P) s m with
    | .fail _ e => .err e
    | .panicked => .panicked
    | .ok s' _ =>
      match s'.info with
      | some info => .ok info
      | none => InfoFetcher.runLoop c P s' rest

/-- InfoFetcher::run (src/peer/info_fetcher.rs lines 48-63): send our extended
handshake and a Request for piece 0, then drive the receive/dispatch loop.
The pair carries the run result and the messages sent before the loop. -/
def InfoFetcher.run (c : Codec) (P : Nat) (s : InfoFetcher) (msgs : List Message) :
    RunRes × List Sent :=
  (InfoFetcher.runLoop c P s msgs, [.handshake, .request 0])

/-- Seed-session state (src/peer/info_seeder.rs lines 10-16).  The
`Connection` field is externalized. -/
structure InfoSeeder where
  ut_metadata_message_id : Nat
  metadata_size : Nat
  info_dict : List Nat
  pieces : Nat
deriving DecidableEq

/-- InfoSeeder::new (src/peer/info_seeder.rs lines 19-45): serialize the info
dictionary, require extension support, read the peer's handshake, capture the
peer's ut_metadata id, and derive the piece count as len / P rounded up. -/
def InfoSeeder.new (c : Codec) (P : Nat) (info : Info)
    (supports_extension_protocol : Bool) (peer_handshake : Except Error Handshake) :
    Except Error InfoSeeder :=
  let info_dict := c.serInfo info
  if supports_extension_protocol = false then
    .error .PeerUtMetadataNotSupported
  else
    match peer_handshake with
    | .error e => .error e
    | .ok handshake =>
      match handshake.message_ids.lookup UtMetadata.NAME with
      | none => .error .PeerUtMetadataNotSupported
      | some id =>
        let pieces :=
          if info_dict.length % P > 0 then info_dict.length / P + 1
          else info_dict.length / P
        .ok { ut_metadata_message_id := id, metadata_size := info_dict.length,
              info_dict := info_dict, pieces := pieces }

/-- Rust slice indexing `&v[start..stop]`: defined exactly when
start ≤ stop ≤ v.len(), and a panic otherwise. -/
def sliceRange (l : List Nat) (start stop : Nat) : Option (List Nat) :=
  if start ≤ stop ∧ stop ≤ l.length then some ((l.drop start).take (stop - start))
  else none

/-- InfoSeeder::send_ut_metadata_data (src/peer/info_seeder.rs lines 47-63):
the byte range of the requested piece is [P*piece, P*(piece+1)), except that
when `pieces - piece == 1` the end is `P*piece + len % P`; the slice of
`info_dict` at that range is sent as the trailer of a Data message whose
header carries the piece index and `total_size = metadata_size`.  An
out-of-bounds range panics, as Rust slicing does. -/
def InfoSeeder.send_ut_metadata_data (P : Nat) (s : InfoSeeder) (piece : Nat) :
    HOut InfoSeeder :=
  let start := P * piece
  let stop :=
    if s.pieces - piece = 1 then P * piece + s.info_dict.length % P
    else P * (piece + 1)
  match sliceRange s.info_dict start stop with
  | none => .panicked
  | some slice => .ok s [.data piece s.metadata_size slice]

/-- Behaviour::ut_metadata_request for InfoSeeder (src/peer/info_seeder.rs
lines 135-140): a request whose piece index is strictly greater than the piece
count is silently ignored; any other index is served. -/
def InfoSeeder.ut_metadata_request (P : Nat) (s : InfoSeeder) (m : UtMetadata) :
    HOut InfoSeeder :=
  if m.piece > s.pieces then .ok s []
  else InfoSeeder.send_ut_metadata_data P s m.piece

/-- The seeder's three Behaviour hooks (src/peer/info_seeder.rs lines
134-149); the data and handshake hooks are no-ops, a pure seeder never
consumes incoming metadata. -/
def InfoSeeder.hooks (P : Nat) : Hooks InfoSeeder where
  extension_handshake := fun s _ => .ok s []
  ut_metadata_data := fun s _ _ => .ok s []
  ut_metadata_request := fun s m => InfoSeeder.ut_metadata_request P s m

/-- Observable status of the serving loop after consuming a finite prefix of
receive outcomes: still looping with the current state, exited by returning an
error to the caller, or killed by a panic. -/
inductive SeedRes
  | stillLooping (s : InfoSeeder)
  | exited (e : Error)
  | panicked
deriving DecidableEq

/-- Serving loop of InfoSeeder::seed (src/peer/info_seeder.rs lines 108-116)
over an explicit list of receive outcomes: a receive failure is swallowed with
`continue`, a dispatch failure is swallowed with `continue` (keeping whatever
state mutation the dispatch performed), and the loop itself has no exit —
only a panic inside a dispatch can end it. -/
def InfoSeeder.seedLoop (c : Codec) (P : Nat) (s : InfoSeeder) :
    List (Except Error Message) → SeedRes
  | [] => .stillLooping s
  | .error _ :: rest => InfoSeeder.seedLoop c P s rest
  | .ok m :: rest =>
    match Hooks.handle_message c (InfoSeeder.hooks P) s m with
    | .ok s' _ => InfoSeeder.seedLoop c P s' rest
    | .fail s' _ => InfoSeeder.seedLoop c P s' rest
    | .panicked => .panicked

/-- Whether the loop status is an exit with an error returned to the caller. -/
def SeedRes.isExited : SeedRes → Bool
  | .exited _ => true
  | _ => false

/-!
Concrete instances used to evaluate the definitions on explicit inputs.
-/

/-- Concrete ut_metadata header decoder: any payload starting with byte 9 is a
well-formed Data header for piece 0. -/
def deUt0 : List Nat → Option UtMetadata
  | 9 :: rest => some { msg_type := 1, piece := 0, total_size := some rest.length }
  | _ => none

/-- Concrete ut_metadata header encoder: every header re-encodes to the single
byte 9, so the header/trailer boundary offset is 1. -/
def serUt0 : UtMetadata → List Nat := fun _ => [9]

/-- Concrete extended-handshake decoder with payloads exercising each shape:
both fields present, size missing, and id missing. -/
def deHandshake0 : List Nat → Option Handshake
  | [1] => some { metadata_size := some 5, message_ids := [(UtMetadata.NAME, 7)] }
  | [2] => some { metadata_size := none, message_ids := [(UtMetadata.NAME, 7)] }
  | [3] => some { metadata_size := some 5, message_ids := [] }
  | _ => none

/-- Concrete info-dictionary decoder: exactly the singleton byte strings are
well-formed dictionaries. -/
def deInfo0 : List Nat → Option Info
  | [n] => some n
  | _ => none

/-- Concrete canonical info-dictionary encoder, a section of `deInfo0`. -/
def serInfo0 : Info → List Nat := fun n => [n]

/-- Concrete infohash digest: the sum of the encoded bytes. -/
def hash0 : List Nat → Infohash := fun l => l.sum

/-- Concrete codec bundling the toy collaborators. -/
def c0 : Codec :=
  { deUt := deUt0, serUt := serUt0, deHandshake := deHandshake0,
    deInfo := deInfo0, serInfo := serInfo0, from_bencoded_info_dict := hash0 }

/-- Seed session holding a 1-byte serialized dictionary with piece size 2:
piece count 1. -/
def sd0 : InfoSeeder :=
  { ut_metadata_message_id := 3, metadata_size := 1, info_dict := [7], pieces := 1 }

/-- Seed session holding a 2-byte serialized dictionary with piece size 2: the
length is an exact multiple of the piece size, piece count 1. -/
def sd1 : InfoSeeder :=
  { ut_metadata_message_id := 3, metadata_size := 2, info_dict := [5, 6], pieces := 1 }

/-- Fetch session expecting a 1-byte dictionary hashing to 42. -/
def fs0 : InfoFetcher :=
  { infohash := 42, ut_metadata_message_id := 3, metadata_size := 1,
    info_dict := [], info := none }

/-- Fetch session with a partially filled accumulator. -/
def fs1 : InfoFetcher :=
  { infohash := 42, ut_metadata_message_id := 3, metadata_size := 1,
    info_dict := [10], info := none }

/-- Fetch session expecting 3 bytes with piece size 4; used to feed a short
non-final piece. -/
def fs3 : InfoFetcher :=
  { infohash := 42, ut_metadata_message_id := 3, metadata_size := 3,
    info_dict := [], info := none }

/-- The state `fs3` after appending the 2-byte trailer of a short piece. -/
def fs3' : InfoFetcher :=
  { infohash := 42, ut_metadata_message_id := 3, metadata_size := 3,
    info_dict := [10, 11], info := none }

/-- C2: the claim states that a request whose piece index is at or beyond the
piece count is silently ignored.  The guard in the code is strict, so the
boundary index equal to the piece count is not ignored: the seeder attempts to
serve it and the piece range [P*pieces, P*(pieces+1)) is out of bounds of the
dictionary, which panics; only indices strictly beyond the count are ignored.
Evaluated on a 1-piece seeder with P = 2: a request for piece 1 panics, a
request for piece 2 is ignored with no message sent. -/
theorem c2_request_at_piece_count_panics :
    InfoSeeder.ut_metadata_request 2 sd0 { msg_type := 0, piece := 1, total_size := none } =
      .panicked ∧
    InfoSeeder.ut_metadata_request 2 sd0 { msg_type := 0, piece := 2, total_size := none } =
      .ok sd0 [] := by
  constructor <;> rfl

/-- C3: the claim states that when the dictionary length is an exact multiple
of the piece size the last piece's Data message carries P bytes.  The code
computes the last piece's range end as `P*piece + len % P`, which for a
2-byte dictionary with P = 2 gives the empty range [0, 0): the Data message
for the last (only) piece carries 0 trailing bytes, not P = 2, and the
dictionary bytes are never transmitted. -/
theorem c3_last_piece_empty_when_len_multiple_of_p :
    InfoSeeder.send_ut_metadata_data 2 sd1 0 = .ok sd1 [.data 0 2 []] := by
  rfl

/-- C4 counterexample: the claim states that a failing receive makes the
serving loop unwind and return the failure as a transport error.  Evaluating
the loop on a trace consisting of one failed receive shows the failure is
swallowed: the loop is still running with its state intact and has not exited
with an error. -/
theorem c4_recv_failure_swallowed :
    InfoSeeder.seedLoop c0 2 sd0 [.error .Network] = .stillLooping sd0 ∧
    (InfoSeeder.seedLoop c0 2 sd0 [.error .Network]).isExited = false := by
  constructor <;> rfl

/-- C4 amended: both receive failures and per-message dispatch failures are
swallowed by the serving loop, which continues in either case; the loop never
returns an error to the caller (the only error `seed()` can surface comes from
sending the initial handshake, before the loop), and only a panic inside a
dispatch ends it. -/
theorem c4_amended_loop_swallows_all_failures (c : Codec) (P : Nat) (s : InfoSeeder)
    (e : Error) (rest : List (Except Error Message)) :
    InfoSeeder.seedLoop c P s (.error e :: rest) = InfoSeeder.seedLoop c P s rest ∧
    ∀ tr : List (Except Error Message), (InfoSeeder.seedLoop c P s tr).isExited = false := by
  refine ⟨rfl, ?_⟩
  intro tr
  induction tr generalizing s with
  | nil => rfl
  | cons r rest ih =>
    cases r with
    | error e' => exact ih s
    | ok m =>
      show (InfoSeeder.seedLoop c P s (.ok m :: rest)).isExited = false
      rw [InfoSeeder.seedLoop]
      cases Hooks.handle_message c (InfoSeeder.hooks P) s m with
      | ok s' sent => exact ih s'
      | fail s' e' => exact ih s'
      | panicked => rfl

/-- C9: the shared dispatcher routes as specified: a non-extension-flavoured
message is a no-op; the handshake extension id invokes the handshake hook on
the raw payload; the metadata-extension id decodes the header and invokes the
data hook for kind Data and the request hook for kind Request, while Reject
and unknown kinds are no-ops; any other extension id is a no-op. -/
theorem c9_dispatch_routes_as_specified {σ : Type} (c : Codec) (hk : Hooks σ) (s : σ) :
    (∀ m : Message, m.flavour ≠ .Extended → Hooks.handle_message c hk s m = .ok s []) ∧
    (∀ payload, Hooks.handle_message c hk s { flavour := .Extended, ext := .ok (.Handshake, payload) } =
      hk.extension_handshake s payload) ∧
    (∀ payload msg, c.deUt payload = some msg →
      (MsgType.of_u8 msg.msg_type = .Data →
        Hooks.handle_message c hk s { flavour := .Extended, ext := .ok (.UtMetadata, payload) } =
          hk.ut_metadata_data s msg payload) ∧
      (MsgType.of_u8 msg.msg_type = .Request →
        Hooks.handle_message c hk s { flavour := .Extended, ext := .ok (.UtMetadata, payload) } =
          hk.ut_metadata_request s msg) ∧
      (MsgType.of_u8 msg.msg_type = .Reject ∨ MsgType.of_u8 msg.msg_type = .NotImplemented →
        Hooks.handle_message c hk s { flavour := .Extended, ext := .ok (.UtMetadata, payload) } =
          .ok s [])) ∧
    (∀ n payload, Hooks.handle_message c hk s
        { flavour := .Extended, ext := .ok (.NotImplemented n, payload) } = .ok s []) := by
  refine ⟨?_, ?_, ?_, ?_⟩
  · intro m hm
    cases m with
    | mk fl ext =>
      cases fl with
      | Extended => exact absurd rfl hm
      | Other => rfl
  · intro payload
    rfl
  · intro payload msg hde
    refine ⟨?_, ?_, ?_⟩
    · intro hty
      simp [Hooks.handle_message, Hooks.handle_extended, Hooks.ut_metadata, hde, hty]
    · intro hty
      simp [Hooks.handle_message, Hooks.handle_extended, Hooks.ut_metadata, hde, hty]
    · rintro (hty | hty) <;>
        simp [Hooks.handle_message, Hooks.handle_extended, Hooks.ut_metadata, hde, hty]
  · intro n payload
    rfl

/-- C9 witness: the dispatcher ignores a non-extension-flavoured message at a
concrete fetcher session. -/
theorem c9_witness :
    Hooks.handle_message c0 (InfoFetcher.hooks c0 16) fs0
      { flavour := .Other, ext := .ok (.Handshake, []) } = .ok fs0 [] :=
  (c9_dispatch_routes_as_specified c0 (InfoFetcher.hooks c0 16) fs0).1
    { flavour := .Other, ext := .ok (.Handshake, []) } (by decide)

/-- C8: an unsolicited mid-session extended handshake re-derives the declared
size and the metadata message id with the same failure modes as at
construction (missing size fails with size-unknown, missing id fails with
unsupported), and on success replaces the stored size and id and clears the
accumulator, so the next expected piece index, computed as accumulated length
divided by P, is 0. -/
theorem c8_rehandshake_rederives_and_resets (c : Codec) (P : Nat) (s : InfoFetcher)
    (payload : List Nat) (hs : Handshake) (hde : c.deHandshake payload = some hs) :
    (hs.metadata_size = none →
      InfoFetcher.extension_handshake c s payload =
        .fail s .PeerUtMetadataMetadataSizeNotKnown) ∧
    (∀ size, hs.metadata_size = some size →
      hs.message_ids.lookup UtMetadata.NAME = none →
      InfoFetcher.extension_handshake c s payload = .fail s .PeerUtMetadataNotSupported) ∧
    (∀ size id, hs.metadata_size = some size →
      hs.message_ids.lookup UtMetadata.NAME = some id →
      InfoFetcher.extension_handshake c s payload =
        .ok { s with metadata_size := size, ut_metadata_message_id := id,
                     info_dict := [] } [] ∧
      ({ s with metadata_size := size, ut_metadata_message_id := id,
                info_dict := ([] : List Nat) } : InfoFetcher).info_dict.length / P = 0) := by
  refine ⟨?_, ?_, ?_⟩
  · intro hnone
    simp [InfoFetcher.extension_handshake, hde, hnone]
  · intro size hsize hid
    simp [InfoFetcher.extension_handshake, hde, hsize, hid]
  · intro size id hsize hid
    refine ⟨?_, by simp⟩
    simp [InfoFetcher.extension_handshake, hde, hsize, hid]

/-- C8 witness: at the concrete codec, handshake payload [1] declares size 5
and id 7, and re-handshaking the partially filled session fs1 replaces both
fields and clears the accumulator. -/
theorem c8_witness :
    InfoFetcher.extension_handshake c0 fs1 [1] =
      .ok { fs1 with metadata_size := 5, ut_metadata_message_id := 7,
                     info_dict := [] } [] ∧
    ({ fs1 with metadata_size := 5, ut_metadata_message_id := 7,
                info_dict := ([] : List Nat) } : InfoFetcher).info_dict.length / 16 = 0 :=
  (c8_rehandshake_rederives_and_resets c0 16 fs1 [1]
    { metadata_size := some 5, message_ids := [(UtMetadata.NAME, 7)] } rfl).2.2
    5 7 rfl (by decide)

/-- C10: the mid-session handshake handler is atomic on failure: when the
payload decodes but lacks a metadata size or lacks a metadata-extension id,
the handler returns an error with the session state unchanged — in particular
the stored size, the negotiated id and the accumulated bytes are all
preserved, so partial accumulation is not discarded. -/
theorem c10_failed_rehandshake_preserves_state (c : Codec) (s : InfoFetcher)
    (payload : List Nat) (hs : Handshake) (hde : c.deHandshake payload = some hs)
    (hfail : hs.metadata_size = none ∨ hs.message_ids.lookup UtMetadata.NAME = none) :
    ∃ e, InfoFetcher.extension_handshake c s payload = .fail s e := by
  rcases hfail with hnone | hid
  · exact ⟨.PeerUtMetadataMetadataSizeNotKnown,
      by simp [InfoFetcher.extension_handshake, hde, hnone]⟩
  · cases hsize : hs.metadata_size with
    | none => exact ⟨.PeerUtMetadataMetadataSizeNotKnown,
        by simp [InfoFetcher.extension_handshake, hde, hsize]⟩
    | some size => exact ⟨.PeerUtMetadataNotSupported,
        by simp [InfoFetcher.extension_handshake, hde, hsize, hid]⟩

/-- C10 witness: handshake payload [2] decodes but lacks a size; the handler
fails and fs1, with its 1-byte partial accumulation, is returned unchanged. -/
theorem c10_witness :
    ∃ e, InfoFetcher.extension_handshake c0 fs1 [2] = .fail fs1 e :=
  c10_failed_rehandshake_preserves_state c0 fs1 [2]
    { metadata_size := none, message_ids := [(UtMetadata.NAME, 7)] } rfl (Or.inl rfl)

/-- C7: fetcher construction fails with a negotiation error before any piece
request is sent whenever the connection reports no extension-protocol support,
or the peer's extended handshake omits the declared metadata size, or the
handshake's message-id mapping has no entry for the metadata extension;
otherwise it stores the negotiated id and size and starts with an empty
accumulator.  Everything sent during construction is at most the extended
handshake, never a piece request. -/
theorem c7_new_negotiation_failures (ih : Infohash) :
    (∀ e, InfoFetcher.new ih (.error e) = (.error e, [])) ∧
    (∀ ci : ConnInfo, ci.supports_extension_protocol = false →
      InfoFetcher.new ih (.ok ci) = (.error .PeerUtMetadataNotSupported, [])) ∧
    (∀ hs : Handshake, hs.metadata_size = none →
      InfoFetcher.new ih (.ok { supports_extension_protocol := true, peer_handshake := .ok hs }) =
        (.error .PeerUtMetadataMetadataSizeNotKnown, [.handshake])) ∧
    (∀ hs : Handshake, ∀ size, hs.metadata_size = some size →
      hs.message_ids.lookup UtMetadata.NAME = none →
      InfoFetcher.new ih (.ok { supports_extension_protocol := true, peer_handshake := .ok hs }) =
        (.error .PeerUtMetadataNotSupported, [.handshake])) ∧
    (∀ hs : Handshake, ∀ size id, hs.metadata_size = some size →
      hs.message_ids.lookup UtMetadata.NAME = some id →
      InfoFetcher.new ih (.ok { supports_extension_protocol := true, peer_handshake := .ok hs }) =
        (.ok { infohash := ih, ut_metadata_message_id := id, metadata_size := size,
               info_dict := [], info := none }, [.handshake])) ∧
    (∀ conn, (InfoFetcher.new ih conn).2 = [] ∨ (InfoFetcher.new ih conn).2 = [.handshake]) := by
  refine ⟨?_, ?_, ?_, ?_, ?_, ?_⟩
  · intro e
    rfl
  · intro ci hsupp
    simp [InfoFetcher.new, hsupp]
  · intro hs hnone
    simp [InfoFetcher.new, hnone]
  · intro hs size hsize hid
    simp [InfoFetcher.new, hsize, hid]
  · intro hs size id hsize hid
    simp [InfoFetcher.new, hsize, hid]
  · intro conn
    cases conn with
    | error e => exact Or.inl rfl
    | ok ci =>
      by_cases hsupp : ci.supports_extension_protocol = false
      · exact Or.inl (by simp [InfoFetcher.new, hsupp])
      · cases hph : ci.peer_handshake with
        | error e => exact Or.inr (by simp [InfoFetcher.new, hsupp, hph])
        | ok hs =>
          cases hsize : hs.metadata_size with
          | none => exact Or.inr (by simp [InfoFetcher.new, hsupp, hph, hsize])
          | some size =>
            cases hid : hs.message_ids.lookup UtMetadata.NAME with
            | none => exact Or.inr (by simp [InfoFetcher.new, hsupp, hph, hsize, hid])
            | some id => exact Or.inr (by simp [InfoFetcher.new, hsupp, hph, hsize, hid])

/-- C7 witness: a peer handshake lacking the metadata-extension id makes
construction fail with the unsupported error, having sent only the extended
handshake. -/
theorem c7_witness :
    InfoFetcher.new 42 (.ok { supports_extension_protocol := true, peer_handshake := .ok { metadata_size := some 5, message_ids := [] } }) =
      (.error .PeerUtMetadataNotSupported, [.handshake]) :=
  (c7_new_negotiation_failures 42).2.2.2.1
    { metadata_size := some 5, message_ids := [] } 5 rfl (by decide)

/-- Characterization of a successful verification: the state is the input
state with the decoded dictionary stored, nothing is sent, the accumulated
bytes decode to that dictionary, and its canonical re-encoding hashes to the
target infohash. -/
theorem verify_info_dict_ok (c : Codec) (t s' : InfoFetcher) (sent : List Sent)
    (h : InfoFetcher.verify_info_dict c t = .ok s' sent) :
    ∃ i, s' = { t with info := some i } ∧ sent = [] ∧
      c.deInfo t.info_dict = some i ∧
      c.from_bencoded_info_dict (c.serInfo i) = t.infohash := by
  simp only [InfoFetcher.verify_info_dict] at h
  cases hde : c.deInfo t.info_dict with
  | none => simp [hde] at h
  | some i =>
    simp only [hde] at h
    split at h
    next heq =>
      cases h
      exact ⟨i, rfl, rfl, rfl, heq⟩
    next heq =>
      cases h

/-- Characterization of a successful data-handler call: the target infohash
and the declared size are untouched, the trailer is appended to the
accumulator, the new accumulated length is bounded by the declared size, the
result dictionary is stored only when the accumulated bytes decode and hash to
the target at exactly the declared size, and the only message possibly sent is
a Request for the next sequential piece index. -/
theorem ut_metadata_data_ok (c : Codec) (P : Nat) (s : InfoFetcher)
    (msg : UtMetadata) (payload : List Nat) (s' : InfoFetcher) (sent : List Sent)
    (h : InfoFetcher.ut_metadata_data c P s msg payload = .ok s' sent) :
    s'.infohash = s.infohash ∧ s'.metadata_size = s.metadata_size ∧
    s'.info_dict = s.info_dict ++ payload.drop (c.serUt msg).length ∧
    s'.info_dict.length ≤ s.metadata_size ∧
    (s'.info = s.info ∨ ∃ i, s'.info = some i ∧ c.deInfo s'.info_dict = some i ∧
      c.from_bencoded_info_dict (c.serInfo i) = s.infohash ∧
      s'.info_dict.length = s.metadata_size) ∧
    (sent = [] ∨ sent = [.request (s.info_dict.length / P + 1)]) := by
  simp only [InfoFetcher.ut_metadata_data] at h
  split at h
  next hp => cases h
  next hp =>
    split at h
    next hlen => cases h
    next hlen =>
      split at h
      next htr => cases h
      next htr =>
        split at h
        next hcmp =>
          have hlen' := Nat.compare_eq_eq.mp hcmp
          obtain ⟨i, hs', hsent, hde, hhash⟩ :=
            verify_info_dict_ok c _ s' sent h
          subst hs'
          refine ⟨rfl, rfl, rfl, Nat.le_of_eq hlen', Or.inr ⟨i, rfl, hde, hhash, hlen'⟩,
            Or.inl hsent⟩
        next hcmp =>
          have hlt := Nat.compare_eq_lt.mp hcmp
          cases h
          exact ⟨rfl, rfl, rfl, Nat.le_of_lt hlt, Or.inl rfl, Or.inr rfl⟩
        next hcmp =>
          cases h

/-- Characterization of a successful mid-session handshake: the target
infohash and the stored dictionary result are untouched. -/
theorem extension_handshake_ok (c : Codec) (s : InfoFetcher) (payload : List Nat)
    (s' : InfoFetcher) (sent : List Sent)
    (h : InfoFetcher.extension_handshake c s payload = .ok s' sent) :
    s'.infohash = s.infohash ∧ s'.info = s.info := by
  simp only [InfoFetcher.extension_handshake] at h
  cases hde : c.deHandshake payload with
  | none => simp [hde] at h
  | some hs =>
    simp only [hde] at h
    cases hsize : hs.metadata_size with
    | none => simp [hsize] at h
    | some size =>
      simp only [hsize] at h
      cases hid : hs.message_ids.lookup UtMetadata.NAME with
      | none => simp [hid] at h
      | some id =>
        simp only [hid] at h
        cases h
        exact ⟨rfl, rfl⟩

/-- Dispatching any one message to the fetcher's hooks preserves the target
infohash, and can set the stored dictionary result only to a value that the
current accumulated bytes decode to and whose canonical re-encoding hashes to
the target infohash. -/
theorem fetcher_handle_message_ok (c : Codec) (P : Nat) (s : InfoFetcher)
    (m : Message) (s' : InfoFetcher) (sent : List Sent)
    (h : Hooks.handle_message c (InfoFetcher.hooks c P) s m = .ok s' sent) :
    s'.infohash = s.infohash ∧
    (s'.info = s.info ∨ ∃ i, s'.info = some i ∧ c.deInfo s'.info_dict = some i ∧
      c.from_bencoded_info_dict (c.serInfo i) = s.infohash) := by
  cases m with
  | mk fl ext =>
    cases fl with
    | Other =>
      simp only [Hooks.handle_message] at h
      cases h
      exact ⟨rfl, Or.inl rfl⟩
    | Extended =>
      simp only [Hooks.handle_message, Hooks.handle_extended, InfoFetcher.hooks] at h
      cases ext with
      | error e => cases h
      | ok p =>
        obtain ⟨eid, payload⟩ := p
        cases eid with
        | Handshake =>
          obtain ⟨h1, h2⟩ := extension_handshake_ok c s payload s' sent h
          exact ⟨h1, Or.inl h2⟩
        | NotImplemented n =>
          cases h
          exact ⟨rfl, Or.inl rfl⟩
        | UtMetadata =>
          simp only [Hooks.ut_metadata] at h
          cases hde : c.deUt payload with
          | none => simp [hde] at h
          | some msg =>
            simp only [hde] at h
            cases hty : MsgType.of_u8 msg.msg_type with
            | Data =>
              simp only [hty] at h
              obtain ⟨h1, _, _, _, h5, _⟩ := ut_metadata_data_ok c P s msg payload s' sent h
              refine ⟨h1, ?_⟩
              rcases h5 with h5 | ⟨i, hi, hdei, hhashi, _⟩
              · exact Or.inl h5
              · exact Or.inr ⟨i, hi, hdei, hhashi⟩
            | Request =>
              simp only [hty] at h
              cases h
              exact ⟨rfl, Or.inl rfl⟩
            | Reject =>
              simp only [hty] at h
              cases h
              exact ⟨rfl, Or.inl rfl⟩
            | NotImplemented =>
              simp only [hty] at h
              cases h
              exact ⟨rfl, Or.inl rfl⟩

/-- C6: after every successful data-handler call the accumulated length never
exceeds the declared total size; a trailer longer than P is rejected with a
fatal error before appending (the state is returned unchanged); and when
appending would make the accumulated length exceed the declared size the
handler fails fatally with the declared-size-violated error. -/
theorem c6_accumulated_length_bounded (c : Codec) (P : Nat) (s : InfoFetcher)
    (msg : UtMetadata) (payload : List Nat) :
    (∀ s' sent, InfoFetcher.ut_metadata_data c P s msg payload = .ok s' sent →
      s'.info_dict.length ≤ s'.metadata_size) ∧
    (msg.piece = s.info_dict.length / P →
      (c.serUt msg).length ≤ payload.length →
      P < (payload.drop (c.serUt msg).length).length →
      InfoFetcher.ut_metadata_data c P s msg payload =
        .fail s .PeerUtMetadataPieceLength) ∧
    (msg.piece = s.info_dict.length / P →
      (c.serUt msg).length ≤ payload.length →
      (payload.drop (c.serUt msg).length).length ≤ P →
      s.metadata_size < s.info_dict.length + (payload.drop (c.serUt msg).length).length →
      InfoFetcher.ut_metadata_data c P s msg payload =
        .fail { s with info_dict := s.info_dict ++ payload.drop (c.serUt msg).length }
          .PeerUtMetadataInfoLength) := by
  refine ⟨?_, ?_, ?_⟩
  · intro s' sent h
    obtain ⟨_, hms, _, hle, _, _⟩ := ut_metadata_data_ok c P s msg payload s' sent h
    rw [hms]
    exact hle
  · intro hp hoff htr
    simp only [InfoFetcher.ut_metadata_data]
    rw [if_neg (not_not.mpr hp), if_neg (Nat.not_lt.mpr hoff), if_pos htr]
  · intro hp hoff htr hgt
    simp only [InfoFetcher.ut_metadata_data]
    rw [if_neg (not_not.mpr hp), if_neg (Nat.not_lt.mpr hoff),
      if_neg (Nat.not_lt.mpr htr)]
    simp only [List.length_append]
    rw [Nat.compare_eq_gt.mpr hgt]

/-- C6 witness: with piece size 2, feeding the partially filled session fs1
(1 byte accumulated, declared size 1) a Data message with a 2-byte trailer
makes the handler fail with the declared-size-violated error after appending. -/
theorem c6_witness :
    InfoFetcher.ut_metadata_data c0 2 fs1 { msg_type := 1, piece := 0, total_size := some 3 }
        [9, 20, 21] =
      .fail { fs1 with info_dict := fs1.info_dict ++
          [9, 20, 21].drop (c0.serUt { msg_type := 1, piece := 0, total_size := some 3 }).length }
        .PeerUtMetadataInfoLength :=
  (c6_accumulated_length_bounded c0 2 fs1 { msg_type := 1, piece := 0, total_size := some 3 }
    [9, 20, 21]).2.2 (by decide) (by decide) (by decide) (by decide)

/-- C5 counterexample: the claim states that every Request the fetcher issues
carries index floor(accumulated_length / P).  Feeding an accepted short
non-final piece (2 trailing bytes with P = 4 and declared size 3) makes the
handler succeed and request piece 1, although floor of the new accumulated
length 2 by P = 4 is 0 — so the issued Request index differs from
floor(accumulated_length / P). -/
theorem c5_counterexample_short_piece :
    InfoFetcher.ut_metadata_data c0 4 fs3 { msg_type := 1, piece := 0, total_size := some 2 }
        [9, 10, 11] = .ok fs3' [.request 1] ∧
    fs3'.info_dict.length / 4 = 0 ∧ (1 : Nat) ≠ 0 :=
  ⟨by decide, by decide, by decide⟩

/-- C5 amended: the expected piece index is floor(accumulated length / P) and
a mismatching Data message fails fatally with the wrong-piece error, with no
reordering or caching (state unchanged); on success the only Request possibly
sent is for index expected + 1; that index equals floor of the new accumulated
length by P whenever the accepted trailer is exactly P bytes (as every
non-final piece of a conforming seeder is), though not for shorter accepted
trailers. -/
theorem c5_amended_sequential_requests (c : Codec) (P : Nat) (s : InfoFetcher)
    (msg : UtMetadata) (payload : List Nat) :
    (msg.piece ≠ s.info_dict.length / P →
      InfoFetcher.ut_metadata_data c P s msg payload = .fail s .PeerUtMetadataWrongPiece) ∧
    (∀ s' sent, InfoFetcher.ut_metadata_data c P s msg payload = .ok s' sent →
      sent = [] ∨ sent = [.request (s.info_dict.length / P + 1)]) ∧
    (0 < P → (payload.drop (c.serUt msg).length).length = P →
      ∀ s' sent, InfoFetcher.ut_metadata_data c P s msg payload = .ok s' sent →
      sent = [] ∨ sent = [.request (s'.info_dict.length / P)]) := by
  refine ⟨?_, ?_, ?_⟩
  · intro hp
    simp only [InfoFetcher.ut_metadata_data]
    rw [if_pos hp]
  · intro s' sent h
    exact (ut_metadata_data_ok c P s msg payload s' sent h).2.2.2.2.2
  · intro hP hfull s' sent h
    obtain ⟨_, _, hdict, _, _, hsent⟩ := ut_metadata_data_ok c P s msg payload s' sent h
    rcases hsent with h1 | h1
    · exact Or.inl h1
    · refine Or.inr ?_
      rw [h1, hdict]
      simp [List.length_append, hfull, Nat.add_div_right _ hP]

/-- C5 witness: the request issued after the accepted short piece is for index
expected + 1 as the amended claim states. -/
theorem c5_witness :
    [Sent.request 1] = [] ∨
      [Sent.request 1] = [Sent.request (fs3.info_dict.length / 4 + 1)] :=
  (c5_amended_sequential_requests c0 4 fs3 { msg_type := 1, piece := 0, total_size := some 2 }
    [9, 10, 11]).2.1 fs3' [.request 1] (by decide)

/-- C1: when a run started with no stored result returns an info dictionary,
that dictionary was obtained by decoding accumulated bytes (so it is in the
image of the decoder) and its canonical re-encoding hashes to the session's
target identifier; error and panic outcomes return no dictionary at all by
construction, so there is no partial result. -/
theorem c1_run_returns_only_verified_info (c : Codec) (P : Nat) (s : InfoFetcher)
    (msgs : List Message) (i : Info) (h0 : s.info = none)
    (h : (InfoFetcher.run c P s msgs).1 = .ok i) :
    c.from_bencoded_info_dict (c.serInfo i) = s.infohash ∧
    ∃ bytes, c.deInfo bytes = some i := by
  induction msgs generalizing s with
  | nil => simp [InfoFetcher.run, InfoFetcher.runLoop] at h
  | cons m rest ih =>
    simp only [InfoFetcher.run, InfoFetcher.runLoop] at h
    cases hh : Hooks.handle_message c (InfoFetcher.hooks c P) s m with
    | fail s1 e =>
      simp [hh] at h
    | panicked =>
      simp [hh] at h
    | ok s1 sent =>
      simp only [hh] at h
      obtain ⟨hhash, hinfo⟩ := fetcher_handle_message_ok c P s m s1 sent hh
      cases hi : s1.info with
      | some i0 =>
        simp only [hi] at h
        injection h with hii
        subst hii
        rcases hinfo with h' | ⟨i1, hsome, hde, hhash'⟩
        · rw [h', h0] at hi
          cases hi
        · rw [hi] at hsome
          injection hsome with hii2
          rw [hii2]
          exact ⟨hhash', s1.info_dict, hde⟩
      | none =>
        simp only [hi] at h
        obtain ⟨ha, hb⟩ := ih s1 hi h
        rw [hhash] at ha
        exact ⟨ha, hb⟩

/-- Incoming Data message carrying the complete 1-byte dictionary [42]. -/
def m0 : Message := { flavour := .Extended, ext := .ok (.UtMetadata, [9, 42]) }

/-- C1 witness: running the concrete session fs0 on the single complete Data
message m0 returns the dictionary 42, which the toy decoder produces and whose
re-encoding hashes to the target 42. -/
theorem c1_witness :
    c0.from_bencoded_info_dict (c0.serInfo 42) = fs0.infohash ∧
    ∃ bytes, c0.deInfo bytes = some 42 :=
  c1_run_returns_only_verified_info c0 16 fs0 [m0] 42 rfl (by decide)
